import Mathlib

/-!
Shallow embedding of the gemini-video-recognition-api core: the
download-service content-type resolution, the in-memory job store with its
scheduled retention purge, the Gemini readiness poll loop, and the
background processing pipeline of the video controller.
-/

namespace VideoApi

/-- JS string fallback `a || b`: among strings only the empty string is falsy. -/
def jsOr (a b : String) : String := if a = "" then b else a

/-- Whitespace trimming on both ends of a character list. -/
def trimChars (l : List Char) : List Char :=
  ((l.dropWhile Char.isWhitespace).reverse.dropWhile Char.isWhitespace).reverse

/-- Boolean test that the first character list is a prefix of the second. -/
def isPrefixList : List Char → List Char → Bool
  | [], _ => true
  | _ :: _, [] => false
  | a :: as, b :: bs => a = b && isPrefixList as bs

/-- Boolean test that the first character list occurs inside the second. -/
def isInfixList (pat : List Char) : List Char → Bool
  | [] => isPrefixList pat []
  | b :: bs => isPrefixList pat (b :: bs) || isInfixList pat bs

/-- String `s` contains `pat` as a substring. -/
def strContains (s pat : String) : Bool := isInfixList pat.data s.data

/-- String `s` ends with `tail`. -/
def strEndsWith (s tail : String) : Bool :=
  isPrefixList tail.data.reverse s.data.reverse

/-- String `s` starts with `head`. -/
def strStartsWith (s head : String) : Bool := isPrefixList head.data s.data

/-- Lower-casing of a string. -/
def lowerStr (s : String) : String := ⟨s.data.map Char.toLower⟩

namespace DownloadService

/-- The fixed `videoMimeTypes` lookup table mapping a cleaned mime type to a
file extension; `none` for types outside the table. -/
def videoMimeTypes (mime : String) : Option String :=
  if mime = "video/mp4" then some ".mp4"
  else if mime = "video/webm" then some ".webm"
  else if mime = "video/ogg" then some ".ogv"
  else if mime = "video/quicktime" then some ".mov"
  else if mime = "video/x-msvideo" then some ".avi"
  else if mime = "video/x-matroska" then some ".mkv"
  else if mime = "video/3gpp" then some ".3gp"
  else if mime = "video/x-flv" then some ".flv"
  else if mime = "application/octet-stream" then some ".mp4"
  else none

/-- Parameter stripping `mimeType.split(";")[0].trim()` shared by
`getExtensionFromMimeType` and the `DownloadResult` mime type: everything
from the first `;` on is dropped and the remainder is trimmed. -/
def stripParams (mime : String) : String :=
  ⟨trimChars (mime.data.takeWhile (fun c => c ≠ ';'))⟩

/-- Embedding of `DownloadService.getExtensionFromMimeType`: clean the mime
type, lower-case it, look it up, default to `.mp4`. -/
def getExtensionFromMimeType (mimeType : String) : String :=
  (videoMimeTypes (lowerStr (stripParams mimeType))).getD ".mp4"

/-- What one `downloadVideo` call observes from the network: whether the
HEAD probe succeeded, the content-type header it carried (empty string when
absent), and the GET response content-type header (empty string when absent). -/
structure FetchEnv where
  headOk : Bool
  headContentType : String
  getContentType : String
deriving DecidableEq, Repr

/-- Content-type resolution inside `downloadVideo`: start from
`application/octet-stream`; a successful HEAD probe overrides it when its
header is truthy; the GET response header overrides both when truthy. A
failed HEAD probe is caught and only logged. -/
def resolveContentType (env : FetchEnv) : String :=
  let initial := "application/octet-stream"
  let afterHead := if env.headOk then jsOr env.headContentType initial else initial
  if env.getContentType = "" then afterHead else env.getContentType

/-- The mime type placed in the `DownloadResult`: the resolved content type,
parameter-stripped. The source URL takes no part in the computation. -/
def downloadVideoMime (_videoUrl : String) (env : FetchEnv) : String :=
  stripParams (resolveContentType env)

/-- The extension of the file name `downloadVideo` finally saves under. -/
def downloadVideoExtension (env : FetchEnv) : String :=
  getExtensionFromMimeType (resolveContentType env)

end DownloadService

/-- Job status literals of the `Job` interface. -/
inductive Status where
  | pending
  | processing
  | completed
  | failed
deriving DecidableEq, Repr

/-- The `processingTime` breakdown attached to completed jobs. -/
structure ProcessingTime where
  download : Nat
  upload : Nat
  processing : Nat
  total : Nat
deriving DecidableEq, Repr

/-- The `Job` record of `src/types`; dates are modelled as milliseconds. -/
structure Job where
  id : String
  status : Status
  videoUrl : String
  prompt : Option String
  result : Option String
  error : Option String
  processingTime : Option ProcessingTime
  createdAt : Nat
  updatedAt : Nat
deriving DecidableEq, Repr

namespace JobService

/-- The in-memory `jobs` map plus the deletion timers created by
`createJob`, each as a job id paired with its absolute fire time. -/
structure StoreState where
  jobs : List (String × Job)
  purges : List (String × Nat)
deriving DecidableEq, Repr

/-- Lookup in the `jobs` map. -/
def lookupJob (jobs : List (String × Job)) (id : String) : Option Job :=
  match jobs with
  | [] => none
  | (k, j) :: rest => if k = id then some j else lookupJob rest id

/-- Deletion from the `jobs` map (`jobs.delete`). -/
def eraseJob (jobs : List (String × Job)) (id : String) : List (String × Job) :=
  jobs.filter (fun kv => kv.1 ≠ id)

/-- Insertion or replacement in the `jobs` map (`jobs.set`). -/
def setJob (jobs : List (String × Job)) (id : String) (j : Job) : List (String × Job) :=
  (id, j) :: eraseJob jobs id

/-- The retention window: one hour in milliseconds. -/
def retentionMs : Nat := 3600000

/-- Embedding of `JobService.createJob`: insert a fresh pending job with both
timestamps set to now, and schedule its deletion `retentionMs` later. -/
def createJob (st : StoreState) (id videoUrl : String) (prompt : Option String)
    (now : Nat) : Job × StoreState :=
  let job : Job :=
    { id := id, status := .pending, videoUrl := videoUrl, prompt := prompt,
      result := none, error := none, processingTime := none,
      createdAt := now, updatedAt := now }
  (job, { jobs := setJob st.jobs id job, purges := (id, now + retentionMs) :: st.purges })

/-- Embedding of `JobService.getJob`. -/
def getJob (st : StoreState) (id : String) : Option Job :=
  lookupJob st.jobs id

/-- A `Partial<Job>` as the three mark helpers build it: a field is `some`
exactly when the key is present in the update object literal.
`markCompleted` may pass the key `processingTime` with an undefined value,
hence the nested option there. -/
structure JobUpdate where
  status : Option Status := none
  result : Option String := none
  error : Option String := none
  processingTime : Option (Option ProcessingTime) := none
deriving DecidableEq, Repr

/-- The `{...job, ...updates, updatedAt: now}` merge of `updateJob`. -/
def applyUpdate (j : Job) (u : JobUpdate) (now : Nat) : Job :=
  { j with
    status := u.status.getD j.status,
    result := (u.result.map some).getD j.result,
    error := (u.error.map some).getD j.error,
    processingTime := u.processingTime.getD j.processingTime,
    updatedAt := now }

/-- Embedding of `JobService.updateJob`: merge into the stored record and
refresh `updatedAt`; when the id is unknown this is logged and `undefined`
is returned with the store untouched. -/
def updateJob (st : StoreState) (id : String) (u : JobUpdate) (now : Nat) :
    Option Job × StoreState :=
  match lookupJob st.jobs id with
  | none => (none, st)
  | some j =>
    let j2 := applyUpdate j u now
    (some j2, { st with jobs := setJob st.jobs id j2 })

/-- Embedding of `JobService.markProcessing`. -/
def markProcessing (st : StoreState) (id : String) (now : Nat) :
    Option Job × StoreState :=
  updateJob st id { status := some .processing } now

/-- Embedding of `JobService.markCompleted`. -/
def markCompleted (st : StoreState) (id : String) (result : String)
    (pt : Option ProcessingTime) (now : Nat) : Option Job × StoreState :=
  updateJob st id { status := some .completed, result := some result,
                    processingTime := some pt } now

/-- Embedding of `JobService.markFailed`. -/
def markFailed (st : StoreState) (id : String) (error : String) (now : Nat) :
    Option Job × StoreState :=
  updateJob st id { status := some .failed, error := some error } now

/-- The deferred deletion scheduled by `createJob` firing: `jobs.delete(id)`
and the one-shot timer entry is consumed. -/
def firePurge (st : StoreState) (id : String) : StoreState :=
  { jobs := eraseJob st.jobs id, purges := st.purges.filter (fun p => p.1 ≠ id) }

/-- Store activity observable between creation and purge: status reads,
record updates, and purge timers of (other) jobs firing. No event re-creates
a job. -/
inductive StoreEvent where
  | readJob (id : String)
  | updateEv (id : String) (u : JobUpdate) (now : Nat)
  | purgeFire (id : String)
deriving DecidableEq, Repr

/-- One store event. `getJob` leaves the store unchanged. -/
def stepStore (st : StoreState) (e : StoreEvent) : StoreState :=
  match e with
  | .readJob _ => st
  | .updateEv id u now => (updateJob st id u now).2
  | .purgeFire id => firePurge st id

/-- A sequence of store events. -/
def runEvents (st : StoreState) (es : List StoreEvent) : StoreState :=
  es.foldl stepStore st

end JobService

namespace GeminiService

/-- The poll budget: `maxAttempts = 60`. -/
def maxAttempts : Nat := 60

/-- The inter-poll delay: 10000 milliseconds. -/
def pollIntervalMs : Nat := 10000

/-- Outcome of the readiness loop: how many `files.get` polls were made and
how many milliseconds were spent in the fixed 10-second sleeps. -/
inductive PollOutcome where
  | ready (polls waitedMs : Nat)
  | timedOut (polls waitedMs : Nat)
deriving DecidableEq, Repr

/-- The `while (!fileReady && attempts < maxAttempts)` loop of
`processVideo`. `name` is `videoFile.name` (empty string when absent, which
throws inside the loop); `states n` is the `state` the n-th poll returns,
where n counts the unsuccessful polls so far; `fuel` stands for
`maxAttempts - attempts`. On a non-`ACTIVE` state the loop increments
`attempts` and sleeps `pollIntervalMs`. -/
def pollAux (name : String) (states : Nat → String) :
    Nat → Nat → Nat → Except String PollOutcome
  | attempts, waited, 0 => .ok (.timedOut attempts waited)
  | attempts, waited, fuel + 1 =>
    if name = "" then .error "Video file name not found"
    else if states attempts = "ACTIVE" then .ok (.ready (attempts + 1) waited)
    else pollAux name states (attempts + 1) (waited + pollIntervalMs) fuel

/-- The full readiness loop from `attempts = 0`. -/
def pollForActive (name : String) (states : Nat → String) :
    Except String PollOutcome :=
  pollAux name states 0 0 maxAttempts

/-- The external Gemini capability as one `processVideo` call observes it:
whether the local file exists, the outcome of the upload, the uploaded
file's `name`, the state stream the polls see, and the outcome of the final
`generateContent` call (its `text`, with the empty string for an absent
text). -/
structure GeminiEnv where
  fileExists : Bool
  upload : Except String Unit
  fileName : String
  states : Nat → String
  generate : Except String String

/-- Embedding of `GeminiService.processVideo`: `.ok none` is a `null`
return, `.error` a thrown message; the boolean records whether an upload to
the external capability was initiated. A missing file returns `null`
without uploading; after the loop, a non-ready file throws the timeout
error; `response.text || null` maps an empty text to `null`. -/
def processVideo (env : GeminiEnv) : Except String (Option String) × Bool :=
  if env.fileExists = false then (.ok none, false)
  else
    match env.upload with
    | .error e => (.error e, true)
    | .ok () =>
      match pollForActive env.fileName env.states with
      | .error e => (.error e, true)
      | .ok (.timedOut _ _) =>
        (.error "Timeout waiting for video file to become active", true)
      | .ok (.ready _ _) =>
        match env.generate with
        | .error e => (.error e, true)
        | .ok t => (.ok (if t = "" then none else some t), true)

end GeminiService

/-- The local filesystem as a set of existing paths. -/
def FileSys : Type := String → Bool

/-- A file coming into existence at a path. -/
def createFile (fs : FileSys) (p : String) : FileSys :=
  fun q => if q = p then true else fs q

/-- `fs.unlinkSync`. -/
def removeFile (fs : FileSys) (p : String) : FileSys :=
  fun q => if q = p then false else fs q

/-- `fs.existsSync`. -/
def existsSync (fs : FileSys) (p : String) : Bool := fs p

/-- Embedding of `DownloadService.cleanupFile`: delete the file when it
exists; when the unlink itself throws (`unlinkFails`) the error is only
logged and the file stays. -/
def cleanupFile (unlinkFails : Bool) (fs : FileSys) (p : String) : FileSys :=
  if existsSync fs p then (if unlinkFails then fs else removeFile fs p) else fs

namespace VideoController

/-- Everything one background run observes from outside: the outcome of
`downloadVideo` (the saved file path and mime type, or the thrown error
message), the Gemini environment, the measured timing figures, whether the
final unlink throws, and the clock values at the two store writes. -/
structure BgEnv where
  dl : Except String (String × String)
  gem : GeminiService.GeminiEnv
  pt : ProcessingTime
  unlinkFails : Bool
  tProcessing : Nat
  tTerminal : Nat

/-- One job-store write of the background pipeline. -/
inductive StoreOp where
  | opProcessing (id : String)
  | opCompleted (id : String) (result : String) (pt : Option ProcessingTime)
  | opFailed (id : String) (error : String)
deriving DecidableEq, Repr

/-- The status a store write moves the job to. -/
def opStatus : StoreOp → Status
  | .opProcessing _ => .processing
  | .opCompleted _ _ _ => .completed
  | .opFailed _ _ => .failed

/-- The sequence of job-store writes `processVideoInBackground` performs:
`markProcessing` first, then — depending on the download outcome, the
Gemini outcome and the `if (!result) throw` null check — exactly one
terminal write, `markCompleted` with the text and timing or `markFailed`
with the caught error message. -/
def bgOps (jobId : String) (env : BgEnv) : List StoreOp :=
  .opProcessing jobId ::
    (match env.dl with
     | .error e => [.opFailed jobId e]
     | .ok (_, _) =>
       match GeminiService.processVideo env.gem with
       | (.error e, _) => [.opFailed jobId e]
       | (.ok none, _) => [.opFailed jobId "Failed to process video with Gemini"]
       | (.ok (some t), _) => [.opCompleted jobId t (some env.pt)])

/-- Embedding of `VideoController.processVideoInBackground` acting on the
job store and the filesystem: mark processing, download, analyze, record
the terminal outcome, and in the `finally` block clean up the downloaded
file when one was produced (`filePath` stays null when the download threw). -/
def runBackground (jobId : String) (env : BgEnv) (st : JobService.StoreState)
    (fs : FileSys) : JobService.StoreState × FileSys :=
  let st1 := (JobService.markProcessing st jobId env.tProcessing).2
  match env.dl with
  | .error e =>
    ((JobService.markFailed st1 jobId e env.tTerminal).2, fs)
  | .ok (fp, _) =>
    let fs1 := createFile fs fp
    let st2 :=
      match GeminiService.processVideo env.gem with
      | (.error e, _) => (JobService.markFailed st1 jobId e env.tTerminal).2
      | (.ok none, _) =>
        (JobService.markFailed st1 jobId
          "Failed to process video with Gemini" env.tTerminal).2
      | (.ok (some t), _) =>
        (JobService.markCompleted st1 jobId t (some env.pt) env.tTerminal).2
    (st2, cleanupFile env.unlinkFails fs1 fp)

end VideoController

/-- The result/error exclusivity invariant over one job record. -/
def resultErrorInv (j : Job) : Prop :=
  ((j.status = .pending ∨ j.status = .processing) → (j.result = none ∧ j.error = none)) ∧
  (j.status = .completed → (j.result ≠ none ∧ j.error = none)) ∧
  (j.status = .failed → (j.error ≠ none ∧ j.result = none))

section Theorems

open DownloadService

/-- Parameter stripping leaves the plain generic binary type unchanged. -/
theorem stripParams_octetStream :
    stripParams "application/octet-stream" = "application/octet-stream" := by
  decide

/-- C1 counterexample: a fetch of a `tiktokcdn.com` URL whose GET response
declares `application/octet-stream` yields exactly the generic binary type
in the `DownloadResult`, not a `video/*` type. -/
theorem C1_counterexample :
    strContains "https://v16-webapp.tiktokcdn.com/video/play/123" "tiktokcdn.com" = true ∧
    resolveContentType ⟨false, "", "application/octet-stream"⟩ =
      "application/octet-stream" ∧
    downloadVideoMime "https://v16-webapp.tiktokcdn.com/video/play/123"
      ⟨false, "", "application/octet-stream"⟩ = "application/octet-stream" ∧
    strStartsWith
      (downloadVideoMime "https://v16-webapp.tiktokcdn.com/video/play/123"
        ⟨false, "", "application/octet-stream"⟩) "video/" = false := by
  exact ⟨by decide, by decide, by decide, by decide⟩

/-- C1 amended: when the declared content type resolves to
`application/octet-stream` and the source URL contains `tiktokcdn.com`, the
mime type returned in the `DownloadResult` stays the generic binary type —
the URL never influences the mime type — and only the saved file's
extension defaults to `.mp4`. -/
theorem C1_theorem (url : String) (env : FetchEnv)
    (h : resolveContentType env = "application/octet-stream")
    (_hurl : strContains url "tiktokcdn.com" = true) :
    downloadVideoMime url env = "application/octet-stream" ∧
    downloadVideoExtension env = ".mp4" ∧
    (∀ url2, downloadVideoMime url2 env = downloadVideoMime url env) := by
  refine ⟨?_, ?_, fun url2 => rfl⟩
  · unfold downloadVideoMime
    rw [h]
    exact stripParams_octetStream
  · unfold downloadVideoExtension
    rw [h]
    decide

/-- C1 witness: the amended statement evaluated at the counterexample input. -/
theorem C1_witness :
    downloadVideoMime "https://v16-webapp.tiktokcdn.com/video/play/123"
      ⟨false, "", "application/octet-stream"⟩ = "application/octet-stream" ∧
    downloadVideoExtension ⟨false, "", "application/octet-stream"⟩ = ".mp4" ∧
    (∀ url2, downloadVideoMime url2 ⟨false, "", "application/octet-stream"⟩ =
      downloadVideoMime "https://v16-webapp.tiktokcdn.com/video/play/123"
        ⟨false, "", "application/octet-stream"⟩) :=
  C1_theorem "https://v16-webapp.tiktokcdn.com/video/play/123"
    ⟨false, "", "application/octet-stream"⟩ (by decide) (by decide)

/-- C2 counterexample: a fetch of a URL ending in `clip.webm` whose GET
response declares `application/octet-stream` yields the generic binary
type, not `video/webm`: no scan of the URL for extension substrings exists. -/
theorem C2_counterexample :
    strEndsWith "https://cdn.example.com/clip.webm" "clip.webm" = true ∧
    downloadVideoMime "https://cdn.example.com/clip.webm"
      ⟨false, "", "application/octet-stream"⟩ = "application/octet-stream" ∧
    downloadVideoMime "https://cdn.example.com/clip.webm"
      ⟨false, "", "application/octet-stream"⟩ ≠ "video/webm" := by
  exact ⟨by decide, by decide, by decide⟩

/-- C2 amended: when the declared content type resolves to
`application/octet-stream` and the URL ends in `clip.webm`, the mime type
returned in the `DownloadResult` stays the generic binary type and is not
`video/webm`; the URL is never scanned, and the saved file's extension
defaults to `.mp4`. -/
theorem C2_theorem (url : String) (env : FetchEnv)
    (h : resolveContentType env = "application/octet-stream")
    (_hurl : strEndsWith url "clip.webm" = true) :
    downloadVideoMime url env = "application/octet-stream" ∧
    downloadVideoMime url env ≠ "video/webm" ∧
    downloadVideoExtension env = ".mp4" := by
  have hm : downloadVideoMime url env = "application/octet-stream" := by
    unfold downloadVideoMime
    rw [h]
    exact stripParams_octetStream
  refine ⟨hm, ?_, ?_⟩
  · rw [hm]
    decide
  · unfold downloadVideoExtension
    rw [h]
    decide

/-- C2 witness: the amended statement evaluated at the counterexample input. -/
theorem C2_witness :
    downloadVideoMime "https://cdn.example.com/clip.webm"
      ⟨false, "", "application/octet-stream"⟩ = "application/octet-stream" ∧
    downloadVideoMime "https://cdn.example.com/clip.webm"
      ⟨false, "", "application/octet-stream"⟩ ≠ "video/webm" ∧
    downloadVideoExtension ⟨false, "", "application/octet-stream"⟩ = ".mp4" :=
  C2_theorem "https://cdn.example.com/clip.webm"
    ⟨false, "", "application/octet-stream"⟩ (by decide) (by decide)

/-- C8: the final content type is the GET response header when truthy, else
the HEAD probe's header when the probe succeeded with a truthy header, else
`application/octet-stream`; a failed HEAD probe does not fail the fetch and
the returned type string is parameter-stripped. -/
theorem C8_theorem (url : String) (env : FetchEnv) :
    (env.getContentType ≠ "" →
      downloadVideoMime url env = stripParams env.getContentType) ∧
    (env.getContentType = "" → env.headOk = true → env.headContentType ≠ "" →
      downloadVideoMime url env = stripParams env.headContentType) ∧
    (env.getContentType = "" → (env.headOk = false ∨ env.headContentType = "") →
      downloadVideoMime url env = "application/octet-stream") := by
  refine ⟨fun hg => ?_, fun hg hok hh => ?_, fun hg hcase => ?_⟩
  · simp [downloadVideoMime, resolveContentType, hg]
  · simp [downloadVideoMime, resolveContentType, hg, hok, jsOr, hh]
  · rcases hcase with h | h <;>
      simp [downloadVideoMime, resolveContentType, hg, h, jsOr,
        stripParams_octetStream]

/-- C8 witness: a concrete fetch where both headers supplied a type uses the
GET header, parameter-stripped. -/
theorem C8_witness :
    downloadVideoMime "https://example.com/v"
      ⟨true, "video/webm", "video/mp4; codecs=avc1"⟩ =
      stripParams "video/mp4; codecs=avc1" ∧
    stripParams "video/mp4; codecs=avc1" = "video/mp4" :=
  ⟨( C8_theorem "https://example.com/v"
      ⟨true, "video/webm", "video/mp4; codecs=avc1"⟩).1 (by decide), by decide⟩

/-- C3: every background run writes `processing` first and then exactly one
terminal status, so with the pending status given at creation the only
observable transition sequences are `pending → processing → completed` and
`pending → processing → failed`. -/
theorem C3_theorem (jobId url : String) (p : Option String) (t0 : Nat)
    (env : VideoController.BgEnv) :
    (JobService.createJob ⟨[], []⟩ jobId url p t0).1.status = .pending ∧
    ((VideoController.bgOps jobId env).head? =
      some (.opProcessing jobId)) ∧
    ((VideoController.bgOps jobId env).map VideoController.opStatus =
        [.processing, .completed] ∨
     (VideoController.bgOps jobId env).map VideoController.opStatus =
        [.processing, .failed]) := by
  refine ⟨rfl, ?_, ?_⟩ <;>
    rcases hdl : env.dl with e | ⟨fp, mt⟩
  · simp [VideoController.bgOps, hdl]
  · rcases hpv : GeminiService.processVideo env.gem with ⟨r, sub⟩
    rcases r with e | t
    · simp [VideoController.bgOps, hdl, hpv]
    · rcases t with _ | t <;> simp [VideoController.bgOps, hdl, hpv]
  · right
    simp [VideoController.bgOps, hdl, VideoController.opStatus]
  · rcases hpv : GeminiService.processVideo env.gem with ⟨r, sub⟩
    rcases r with e | t
    · right
      simp [VideoController.bgOps, hdl, hpv, VideoController.opStatus]
    · rcases t with _ | t
      · right
        simp [VideoController.bgOps, hdl, hpv, VideoController.opStatus]
      · left
        simp [VideoController.bgOps, hdl, hpv, VideoController.opStatus]

/-- C4: along the background run of a freshly created job, every record the
store holds for that job satisfies the result/error exclusivity invariant:
nothing set while pending or processing, exactly the result set when
completed, exactly the error set when failed. -/
theorem C4_theorem (jobId url : String) (p : Option String) (t0 : Nat)
    (env : VideoController.BgEnv) (fs : FileSys) :
    (∀ j, JobService.getJob (JobService.createJob ⟨[], []⟩ jobId url p t0).2
        jobId = some j → resultErrorInv j) ∧
    (∀ j, JobService.getJob
        (JobService.markProcessing (JobService.createJob ⟨[], []⟩ jobId url p t0).2
          jobId env.tProcessing).2 jobId = some j → resultErrorInv j) ∧
    (∀ j, JobService.getJob
        (VideoController.runBackground jobId env
          (JobService.createJob ⟨[], []⟩ jobId url p t0).2 fs).1 jobId = some j →
      resultErrorInv j) := by
  refine ⟨?_, ?_, ?_⟩
  · intro j hj
    simp [JobService.createJob, JobService.getJob, JobService.lookupJob,
      JobService.setJob, JobService.eraseJob] at hj
    subst hj
    simp [resultErrorInv]
  · intro j hj
    simp [JobService.createJob, JobService.getJob, JobService.lookupJob,
      JobService.setJob, JobService.eraseJob, JobService.markProcessing,
      JobService.updateJob, JobService.applyUpdate] at hj
    subst hj
    simp [resultErrorInv]
  · intro j hj
    rcases hdl : env.dl with e | ⟨fp, mt⟩
    · simp [VideoController.runBackground, hdl, JobService.createJob,
        JobService.getJob, JobService.lookupJob, JobService.setJob,
        JobService.eraseJob, JobService.markProcessing, JobService.markFailed,
        JobService.updateJob, JobService.applyUpdate] at hj
      subst hj
      simp [resultErrorInv]
    · rcases hpv : GeminiService.processVideo env.gem with ⟨r, sub⟩
      rcases r with e | t
      · simp [VideoController.runBackground, hdl, hpv, JobService.createJob,
          JobService.getJob, JobService.lookupJob, JobService.setJob,
          JobService.eraseJob, JobService.markProcessing, JobService.markFailed,
          JobService.updateJob, JobService.applyUpdate] at hj
        subst hj
        simp [resultErrorInv]
      · rcases t with _ | t
        · simp [VideoController.runBackground, hdl, hpv, JobService.createJob,
            JobService.getJob, JobService.lookupJob, JobService.setJob,
            JobService.eraseJob, JobService.markProcessing, JobService.markFailed,
            JobService.updateJob, JobService.applyUpdate] at hj
          subst hj
          simp [resultErrorInv]
        · simp [VideoController.runBackground, hdl, hpv, JobService.createJob,
            JobService.getJob, JobService.lookupJob, JobService.setJob,
            JobService.eraseJob, JobService.markProcessing, JobService.markCompleted,
            JobService.updateJob, JobService.applyUpdate] at hj
          subst hj
          simp [resultErrorInv]

/-- C4 witness: the invariant instantiated on the final record of a
concrete successful run. -/
theorem C4_witness :
    resultErrorInv
      { id := "job-1", status := .completed,
        videoUrl := "https://example.com/v.mp4", prompt := none,
        result := some "a description", error := none,
        processingTime := some ⟨1, 2, 3, 4⟩, createdAt := 0, updatedAt := 9 } :=
  ( C4_theorem "job-1" "https://example.com/v.mp4" none 0
    { dl := .ok ("/tmp/a.mp4", "video/mp4"),
      gem := { fileExists := true, upload := .ok (), fileName := "files/abc",
               states := fun _ => "ACTIVE", generate := .ok "a description" },
      pt := ⟨1, 2, 3, 4⟩, unlinkFails := false,
      tProcessing := 5, tTerminal := 9 } (fun _ => false)).2.2
    { id := "job-1", status := .completed,
      videoUrl := "https://example.com/v.mp4", prompt := none,
      result := some "a description", error := none,
      processingTime := some ⟨1, 2, 3, 4⟩, createdAt := 0, updatedAt := 9 } rfl

/-- When no poll ever observes `ACTIVE`, the loop spends its whole budget:
each of the `fuel` remaining iterations polls once and sleeps once. -/
theorem pollAux_never_active (name : String) (states : Nat → String)
    (hnm : name ≠ "") (hst : ∀ n, states n ≠ "ACTIVE") :
    ∀ fuel attempts waited,
      GeminiService.pollAux name states attempts waited fuel =
        .ok (.timedOut (attempts + fuel)
              (waited + fuel * GeminiService.pollIntervalMs)) := by
  intro fuel
  induction fuel with
  | zero =>
    intro a w
    simp [GeminiService.pollAux]
  | succ n ih =>
    intro a w
    rw [GeminiService.pollAux]
    simp only [hnm, hst a, if_false, ite_false, ih (a + 1)]
    have h1 : a + 1 + n = a + (n + 1) := by omega
    have h2 : w + GeminiService.pollIntervalMs + n * GeminiService.pollIntervalMs =
        w + (n + 1) * GeminiService.pollIntervalMs := by
      simp [GeminiService.pollIntervalMs]
      omega
    rw [h1, h2]

/-- C5: when readiness never arrives the loop performs exactly the
60-attempt budget of polls with 10-second sleeps between them, `processVideo`
throws the timeout error (whose message mentions the timeout), and the
background pipeline marks the job failed with that message, never completed. -/
theorem C5_theorem (env : VideoController.BgEnv) (fp mt : String)
    (hdl : env.dl = .ok (fp, mt))
    (hex : env.gem.fileExists = true)
    (hup : env.gem.upload = .ok ())
    (hnm : env.gem.fileName ≠ "")
    (hst : ∀ n, env.gem.states n ≠ "ACTIVE") :
    GeminiService.pollForActive env.gem.fileName env.gem.states =
      .ok (.timedOut GeminiService.maxAttempts
            (GeminiService.maxAttempts * GeminiService.pollIntervalMs)) ∧
    (GeminiService.processVideo env.gem).1 =
      .error "Timeout waiting for video file to become active" ∧
    strStartsWith "Timeout waiting for video file to become active"
      "Timeout" = true ∧
    ∀ (jobId url : String) (p : Option String) (t0 : Nat) (fs : FileSys),
      ∃ j, JobService.getJob
          (VideoController.runBackground jobId env
            (JobService.createJob ⟨[], []⟩ jobId url p t0).2 fs).1 jobId =
            some j ∧
        j.status = .failed ∧ j.status ≠ .completed ∧
        j.error = some "Timeout waiting for video file to become active" := by
  have hpoll : GeminiService.pollForActive env.gem.fileName env.gem.states =
      .ok (.timedOut GeminiService.maxAttempts
            (GeminiService.maxAttempts * GeminiService.pollIntervalMs)) := by
    rw [GeminiService.pollForActive,
      pollAux_never_active env.gem.fileName env.gem.states hnm hst]
    simp [GeminiService.maxAttempts, GeminiService.pollIntervalMs]
  have hpv : GeminiService.processVideo env.gem =
      (.error "Timeout waiting for video file to become active", true) := by
    simp [GeminiService.processVideo, hex, hup, hpoll]
  refine ⟨hpoll, by simp [hpv], by decide, ?_⟩
  intro jobId url p t0 fs
  refine ⟨{ id := jobId, status := .failed, videoUrl := url, prompt := p,
            result := none,
            error := some "Timeout waiting for video file to become active",
            processingTime := none, createdAt := t0,
            updatedAt := env.tTerminal }, ?_, rfl, by simp, rfl⟩
  simp [VideoController.runBackground, hdl, hpv, JobService.createJob,
    JobService.getJob, JobService.lookupJob, JobService.setJob,
    JobService.eraseJob, JobService.markProcessing, JobService.markFailed,
    JobService.updateJob, JobService.applyUpdate]

/-- C5 witness: a concrete run whose polls always observe `PROCESSING`
throws the timeout error out of `processVideo`. -/
theorem C5_witness :
    (GeminiService.processVideo
      { fileExists := true, upload := .ok (), fileName := "files/abc",
        states := fun _ => "PROCESSING", generate := .ok "text" }).1 =
      .error "Timeout waiting for video file to become active" :=
  (C5_theorem
    { dl := .ok ("/tmp/a.mp4", "video/mp4"),
      gem := { fileExists := true, upload := .ok (), fileName := "files/abc",
               states := fun _ => "PROCESSING", generate := .ok "text" },
      pt := ⟨1, 2, 3, 4⟩, unlinkFails := false,
      tProcessing := 5, tTerminal := 9 }
    "/tmp/a.mp4" "video/mp4" rfl rfl rfl (by decide)
    (fun n => by simp)).2.1

/-- Erasing any key preserves the absence of a key. -/
theorem lookupJob_eraseJob_none (l : List (String × Job)) (i id : String)
    (h : JobService.lookupJob l id = none) :
    JobService.lookupJob (JobService.eraseJob l i) id = none := by
  induction l with
  | nil => exact h
  | cons kv rest ih =>
    obtain ⟨k, j⟩ := kv
    by_cases hk : k = id
    · simp [JobService.lookupJob, hk] at h
    · simp only [JobService.lookupJob, if_neg hk] at h
      by_cases hki : k = i
      · simpa [JobService.eraseJob, hki] using ih h
      · simpa [JobService.eraseJob, JobService.lookupJob, hki, hk] using ih h

/-- Erasing a key removes every record stored under it. -/
theorem lookupJob_eraseJob_self (l : List (String × Job)) (id : String) :
    JobService.lookupJob (JobService.eraseJob l id) id = none := by
  induction l with
  | nil => rfl
  | cons kv rest ih =>
    obtain ⟨k, j⟩ := kv
    by_cases hk : k = id
    · simpa [JobService.eraseJob, hk] using ih
    · simpa [JobService.eraseJob, JobService.lookupJob, hk] using ih

/-- No store event resurrects an absent job record. -/
theorem lookupJob_none_step (st : JobService.StoreState) (id : String)
    (e : JobService.StoreEvent)
    (h : JobService.lookupJob st.jobs id = none) :
    JobService.lookupJob (JobService.stepStore st e).jobs id = none := by
  rcases e with i | ⟨i, u, now⟩ | i
  · exact h
  · simp only [JobService.stepStore, JobService.updateJob]
    rcases hl : JobService.lookupJob st.jobs i with _ | j
    · exact h
    · have hne : i ≠ id := by
        intro hEq
        rw [hEq] at hl
        rw [h] at hl
        exact Option.noConfusion hl
      simp only [JobService.setJob, JobService.lookupJob, if_neg hne]
      exact lookupJob_eraseJob_none st.jobs i id h
  · exact lookupJob_eraseJob_none st.jobs i id h

/-- Absence of a job record is stable under any event sequence: no event
creates a job. -/
theorem lookupJob_none_run (es : List JobService.StoreEvent) :
    ∀ st : JobService.StoreState, ∀ id : String,
      JobService.lookupJob st.jobs id = none →
      JobService.lookupJob (JobService.runEvents st es).jobs id = none := by
  induction es with
  | nil => intro st id h; exact h
  | cons e rest ih =>
    intro st id h
    exact ih (JobService.stepStore st e) id (lookupJob_none_step st id e h)

/-- A scheduled purge entry survives any store event other than its own
firing: reads and updates never touch the timers. -/
theorem purges_mem_step (st : JobService.StoreState)
    (e : JobService.StoreEvent) (id : String) (t : Nat)
    (hmem : (id, t) ∈ st.purges) (hne : e ≠ .purgeFire id) :
    (id, t) ∈ (JobService.stepStore st e).purges := by
  rcases e with i | ⟨i, u, now⟩ | i
  · exact hmem
  · simp only [JobService.stepStore, JobService.updateJob]
    rcases hl : JobService.lookupJob st.jobs i with _ | j
    · exact hmem
    · exact hmem
  · have hid : id ≠ i := by
      intro hEq
      exact hne (by rw [hEq])
    simp only [JobService.stepStore, JobService.firePurge, List.mem_filter]
    exact ⟨hmem, by simpa using hid⟩

/-- A scheduled purge entry survives any event sequence that does not fire
it. -/
theorem purges_mem_run (es : List JobService.StoreEvent) :
    ∀ st : JobService.StoreState, ∀ id : String, ∀ t : Nat,
      (id, t) ∈ st.purges → (∀ e ∈ es, e ≠ .purgeFire id) →
      (id, t) ∈ (JobService.runEvents st es).purges := by
  induction es with
  | nil => intro st id t hmem _; exact hmem
  | cons e rest ih =>
    intro st id t hmem hes
    exact ih (JobService.stepStore st e) id t
      (purges_mem_step st e id t hmem (hes e (by simp)))
      (fun e2 he2 => hes e2 (by simp [he2]))

/-- C6: `createJob` schedules a one-shot purge of the new id exactly one
retention window after creation; reads, updates and other jobs' purges
never move or cancel that timer; and once it fires the lookup for the id is
absent and stays absent under any further store activity. -/
theorem C6_theorem (jobId url : String) (p : Option String) (t0 : Nat)
    (st : JobService.StoreState) (es es2 : List JobService.StoreEvent)
    (hes : ∀ e ∈ es, e ≠ .purgeFire jobId) :
    ((jobId, t0 + JobService.retentionMs) ∈
      (JobService.createJob st jobId url p t0).2.purges) ∧
    ((jobId, t0 + JobService.retentionMs) ∈
      (JobService.runEvents (JobService.createJob st jobId url p t0).2 es).purges) ∧
    (JobService.getJob
      (JobService.runEvents
        (JobService.firePurge
          (JobService.runEvents (JobService.createJob st jobId url p t0).2 es)
          jobId)
        es2) jobId = none) := by
  refine ⟨by simp [JobService.createJob], ?_, ?_⟩
  · exact purges_mem_run es _ jobId _ (by simp [JobService.createJob]) hes
  · have hafter : JobService.lookupJob
        (JobService.firePurge
          (JobService.runEvents (JobService.createJob st jobId url p t0).2 es)
          jobId).jobs jobId = none := by
      simp only [JobService.firePurge]
      exact lookupJob_eraseJob_self _ jobId
    exact lookupJob_none_run es2 _ jobId hafter

/-- C6 witness: a concrete job that is read and updated after creation is
still purged on schedule and unknown afterwards. -/
theorem C6_witness :
    JobService.getJob
      (JobService.runEvents
        (JobService.firePurge
          (JobService.runEvents
            (JobService.createJob ⟨[], []⟩ "job-1" "https://example.com/v.mp4"
              none 0).2
            [.readJob "job-1",
             .updateEv "job-1" { status := some .processing } 7,
             .purgeFire "job-2"])
          "job-1")
        [.updateEv "job-1" { status := some .completed } 8, .readJob "job-1"])
      "job-1" = none :=
  ( C6_theorem "job-1" "https://example.com/v.mp4" none 0 ⟨[], []⟩
    [.readJob "job-1",
     .updateEv "job-1" { status := some .processing } 7,
     .purgeFire "job-2"]
    [.updateEv "job-1" { status := some .completed } 8, .readJob "job-1"]
    (by decide)).2.2

/-- C7: on every exit path, if the download produced a local file it is
gone after the run (when the unlink itself does not throw); when the
download threw, the finally block touches nothing; and a failing unlink
never changes the store outcome — the cleanup failure cannot mask or
replace the primary result or error. -/
theorem C7_theorem (jobId : String) (env : VideoController.BgEnv)
    (st : JobService.StoreState) (fs : FileSys) :
    (∀ fp mt, env.dl = .ok (fp, mt) → env.unlinkFails = false →
      existsSync (VideoController.runBackground jobId env st fs).2 fp = false) ∧
    (∀ e, env.dl = .error e →
      (VideoController.runBackground jobId env st fs).2 = fs) ∧
    ((VideoController.runBackground jobId
        { env with unlinkFails := true } st fs).1 =
      (VideoController.runBackground jobId
        { env with unlinkFails := false } st fs).1) := by
  refine ⟨?_, ?_, ?_⟩
  · intro fp mt hdl hun
    simp [VideoController.runBackground, hdl, hun, cleanupFile, existsSync,
      createFile, removeFile]
  · intro e hdl
    simp [VideoController.runBackground, hdl]
  · rcases hdl : env.dl with e | ⟨fp, mt⟩
    · simp [VideoController.runBackground, hdl]
    · rcases hpv : GeminiService.processVideo env.gem with ⟨r, sub⟩
      rcases r with e | t
      · simp [VideoController.runBackground, hdl, hpv]
      · rcases t with _ | t <;> simp [VideoController.runBackground, hdl, hpv]

/-- C7 witness: a concrete successful run deletes its downloaded file. -/
theorem C7_witness :
    existsSync
      (VideoController.runBackground "job-1"
        { dl := .ok ("/tmp/a.mp4", "video/mp4"),
          gem := { fileExists := true, upload := .ok (), fileName := "files/abc",
                   states := fun _ => "ACTIVE", generate := .ok "a description" },
          pt := ⟨1, 2, 3, 4⟩, unlinkFails := false,
          tProcessing := 5, tTerminal := 9 }
        (JobService.createJob ⟨[], []⟩ "job-1" "https://example.com/v.mp4"
          none 0).2 (fun _ => false)).2 "/tmp/a.mp4" = false :=
  ( C7_theorem "job-1"
    { dl := .ok ("/tmp/a.mp4", "video/mp4"),
      gem := { fileExists := true, upload := .ok (), fileName := "files/abc",
               states := fun _ => "ACTIVE", generate := .ok "a description" },
      pt := ⟨1, 2, 3, 4⟩, unlinkFails := false,
      tProcessing := 5, tTerminal := 9 }
    (JobService.createJob ⟨[], []⟩ "job-1" "https://example.com/v.mp4"
      none 0).2 (fun _ => false)).1 "/tmp/a.mp4" "video/mp4" rfl rfl

/-- C9: an update (plain or through any of the three mark helpers) for an
id the store does not hold returns `undefined`, modifies nothing, and the
background pipeline that issues such updates still runs to the end leaving
the store exactly as it was. -/
theorem C9_theorem (st : JobService.StoreState) (id : String)
    (h : JobService.getJob st id = none) :
    (∀ u now, JobService.updateJob st id u now = (none, st)) ∧
    (∀ now, JobService.markProcessing st id now = (none, st)) ∧
    (∀ r pt now, JobService.markCompleted st id r pt now = (none, st)) ∧
    (∀ e now, JobService.markFailed st id e now = (none, st)) ∧
    (∀ env fs, (VideoController.runBackground id env st fs).1 = st) := by
  have hl : JobService.lookupJob st.jobs id = none := h
  have hu : ∀ u now, JobService.updateJob st id u now = (none, st) := by
    intro u now
    simp [JobService.updateJob, hl]
  refine ⟨hu, fun now => hu _ _, fun r pt now => hu _ _, fun e now => hu _ _, ?_⟩
  intro env fs
  rcases hdl : env.dl with e | ⟨fp, mt⟩
  · simp [VideoController.runBackground, hdl, JobService.markProcessing,
      JobService.markFailed, hu]
  · rcases hpv : GeminiService.processVideo env.gem with ⟨r, sub⟩
    rcases r with e | t
    · simp [VideoController.runBackground, hdl, hpv, JobService.markProcessing,
        JobService.markFailed, hu]
    · rcases t with _ | t <;>
        simp [VideoController.runBackground, hdl, hpv, JobService.markProcessing,
          JobService.markFailed, JobService.markCompleted, hu]

/-- C9 witness: updating a never-created id on the empty store is a silent
no-op. -/
theorem C9_witness :
    JobService.updateJob ⟨[], []⟩ "ghost"
      { status := some Status.processing } 5 = (none, ⟨[], []⟩) :=
  (C9_theorem ⟨[], []⟩ "ghost" rfl).1 { status := some Status.processing } 5

/-- C10: when the local file is absent at call time `processVideo` returns
`null` without initiating an upload, and the background pipeline turns the
`null` into the generic failure message and marks the job failed with it. -/
theorem C10_theorem (env : VideoController.BgEnv) (fp mt : String)
    (hex : env.gem.fileExists = false)
    (hdl : env.dl = .ok (fp, mt)) :
    GeminiService.processVideo env.gem = (.ok none, false) ∧
    ∀ (jobId url : String) (p : Option String) (t0 : Nat) (fs : FileSys),
      ∃ j, JobService.getJob
          (VideoController.runBackground jobId env
            (JobService.createJob ⟨[], []⟩ jobId url p t0).2 fs).1 jobId =
            some j ∧
        j.status = .failed ∧
        j.error = some "Failed to process video with Gemini" := by
  have hpv : GeminiService.processVideo env.gem = (.ok none, false) := by
    simp [GeminiService.processVideo, hex]
  refine ⟨hpv, ?_⟩
  intro jobId url p t0 fs
  refine ⟨{ id := jobId, status := .failed, videoUrl := url, prompt := p,
            result := none,
            error := some "Failed to process video with Gemini",
            processingTime := none, createdAt := t0,
            updatedAt := env.tTerminal }, ?_, rfl, rfl⟩
  simp [VideoController.runBackground, hdl, hpv, JobService.createJob,
    JobService.getJob, JobService.lookupJob, JobService.setJob,
    JobService.eraseJob, JobService.markProcessing, JobService.markFailed,
    JobService.updateJob, JobService.applyUpdate]

/-- C10 witness: a concrete call with the file missing returns `null` and
uploads nothing. -/
theorem C10_witness :
    GeminiService.processVideo
      { fileExists := false, upload := .ok (), fileName := "files/abc",
        states := fun _ => "ACTIVE", generate := .ok "text" } =
      (.ok none, false) :=
  (C10_theorem
    { dl := .ok ("/tmp/missing.mp4", "video/mp4"),
      gem := { fileExists := false, upload := .ok (), fileName := "files/abc",
               states := fun _ => "ACTIVE", generate := .ok "text" },
      pt := ⟨1, 2, 3, 4⟩, unlinkFails := false,
      tProcessing := 5, tTerminal := 9 }
    "/tmp/missing.mp4" "video/mp4" rfl rfl).1

end Theorems

end VideoApi
